import Mathlib

/-!
# Verification of the Crazy Ace game engine

Shallow embedding of the game-state machine of `src/src/App.tsx` (a
Crazy-Eights variant where the first player to empty their hand loses).
React `useState` fields become the fields of `GameState`; each event
handler becomes a pure function `GameState → GameState`.  Presentation-only
fields (`message`, `isAiThinking`) are omitted.  The deck-construction
helpers live in `src/types.ts`, which is not part of the sources; they are
modelled from the specification where marked.
-/

/-- The four suits (`Suit` in `src/types.ts`, used throughout `App.tsx`). -/
inductive Suit where
  | hearts
  | diamonds
  | clubs
  | spades
deriving DecidableEq, Repr

/-- The thirteen ranks; `A` (Ace) is the wild rank. -/
inductive Rank where
  | A
  | r2
  | r3
  | r4
  | r5
  | r6
  | r7
  | r8
  | r9
  | r10
  | J
  | Q
  | K
deriving DecidableEq, Repr

/-- A playing card: unique identifier, suit and rank. -/
structure Card where
  id : Nat
  suit : Suit
  rank : Rank
deriving DecidableEq, Repr

instance : Inhabited Card := ⟨⟨0, Suit.hearts, Rank.A⟩⟩

/-- Turn owner: the human (`'player'`) or the scripted opponent (`'ai'`). -/
inductive Turn where
  | player
  | ai
deriving DecidableEq, Repr

/-- Game status: `'start' | 'playing' | 'won' | 'lost'` (from the human's
point of view). -/
inductive Status where
  | start
  | playing
  | won
  | lost
deriving DecidableEq, Repr

/-- The game state: the `useState` fields of `App` that carry rules-relevant
data (`deck`, `playerHand`, `aiHand`, `discardPile`, `currentSuit`, `turn`,
`gameStatus`, `showSuitPicker`, `pendingAceCard`). -/
structure GameState where
  deck : List Card
  playerHand : List Card
  aiHand : List Card
  discardPile : List Card
  currentSuit : Option Suit
  turn : Turn
  gameStatus : Status
  showSuitPicker : Bool
  pendingAceCard : Option Card
deriving DecidableEq, Repr

/-- `SUITS` from `src/types.ts` (enumeration order used by the UI). -/
def SUITS : List Suit := [Suit.hearts, Suit.diamonds, Suit.clubs, Suit.spades]

/-- The thirteen ranks in a fixed order. -/
def RANKS : List Rank :=
  [Rank.A, Rank.r2, Rank.r3, Rank.r4, Rank.r5, Rank.r6, Rank.r7, Rank.r8,
   Rank.r9, Rank.r10, Rank.J, Rank.Q, Rank.K]

/-- Modelled from the spec: `createDeck` of `src/types.ts` is not under
`src/`; the spec says it "produces the 52 distinct (suit, rank) combinations,
each tagged with a fresh unique identifier; deterministic order". -/
def createDeck : List Card :=
  (SUITS.zip (List.range 4)).flatMap fun sp =>
    (RANKS.zip (List.range 13)).map fun rp =>
      { id := 13 * sp.2 + rp.2, suit := sp.1, rank := rp.1 }

/-- `initGame`: deals a (shuffled) 52-card deck — first 10 cards to the
human, next 10 to the opponent, the 21st card seeds the discard pile (its
suit becomes the effective suit), the rest becomes the draw pile.
`shuffleDeck` lives in `src/types.ts`; per the spec it returns a permutation
of its input, so `initGame` is parametrised by the already-shuffled deck. -/
def initGame (fullDeck : List Card) : GameState :=
  let pHand := fullDeck.take 10
  let aHand := (fullDeck.drop 10).take 10
  let initialDiscard := fullDeck.getD 20 default
  let remainingDeck := fullDeck.drop 21
  { deck := remainingDeck
    playerHand := pHand
    aiHand := aHand
    discardPile := [initialDiscard]
    currentSuit := some initialDiscard.suit
    turn := Turn.player
    gameStatus := Status.playing
    showSuitPicker := false
    pendingAceCard := none }

/-- `topDiscard`: the last element of the discard pile
(`discardPile[discardPile.length - 1]`, `undefined` on an empty pile). -/
def topDiscard (s : GameState) : Option Card :=
  s.discardPile.getLast?

/-- `canPlay`: a card is playable if there is a top discard and the card is
an Ace, or its suit equals the current suit, or its rank equals the top
discard's rank. -/
def canPlay (s : GameState) (card : Card) : Bool :=
  match topDiscard s with
  | none => false
  | some top =>
    if card.rank = Rank.A then true
    else decide (some card.suit = s.currentSuit) || decide (card.rank = top.rank)

/-- `checkGameOver`: first to empty hand loses.  Takes the post-play hands;
returns the state with `gameStatus` updated, and whether the game ended.
The human hand is tested first. -/
def checkGameOver (s : GameState) (pHand aHand : List Card) : GameState × Bool :=
  if pHand.length = 0 then ({ s with gameStatus := Status.lost }, true)
  else if aHand.length = 0 then ({ s with gameStatus := Status.won }, true)
  else (s, false)

/-- `handlePlayerPlay`: the human plays `card`.  Illegal intents are no-ops;
an Ace defers the play behind the suit picker; otherwise the card moves from
hand to discard, the current suit becomes the card's suit, the terminal
check runs, and the turn flips to the opponent if the game continues. -/
def handlePlayerPlay (card : Card) (s : GameState) : GameState :=
  if s.turn ≠ Turn.player ∨ s.gameStatus ≠ Status.playing ∨ ¬canPlay s card then s
  else if card.rank = Rank.A then
    { s with pendingAceCard := some card, showSuitPicker := true }
  else
    let newHand := s.playerHand.filter fun c => c.id ≠ card.id
    let s1 := { s with playerHand := newHand
                       discardPile := s.discardPile ++ [card]
                       currentSuit := some card.suit }
    let r := checkGameOver s1 newHand s.aiHand
    if r.2 then r.1 else { r.1 with turn := Turn.ai }

/-- `handleSuitPick`: completes a deferred Ace play.  A no-op when no Ace is
pending; otherwise the pending card moves from hand to discard, the current
suit becomes the chosen suit, the pending state clears, the terminal check
runs, and the turn flips if the game continues. -/
def handleSuitPick (suit : Suit) (s : GameState) : GameState :=
  match s.pendingAceCard with
  | none => s
  | some p =>
    let newHand := s.playerHand.filter fun c => c.id ≠ p.id
    let s1 := { s with playerHand := newHand
                       discardPile := s.discardPile ++ [p]
                       currentSuit := some suit
                       showSuitPicker := false
                       pendingAceCard := none }
    let r := checkGameOver s1 newHand s.aiHand
    if r.2 then r.1 else { r.1 with turn := Turn.ai }

/-- `handleDraw`: the human draws.  Illegal intents are no-ops; an empty
draw pile passes the turn with no card gained; otherwise the top draw-pile
card joins the hand and the turn passes exactly when that card is not
playable. -/
def handleDraw (s : GameState) : GameState :=
  if s.turn ≠ Turn.player ∨ s.gameStatus ≠ Status.playing then s
  else
    match s.deck with
    | [] => { s with turn := Turn.ai }
    | newCard :: newDeck =>
      let s1 := { s with playerHand := s.playerHand ++ [newCard], deck := newDeck }
      if canPlay s newCard then s1 else { s1 with turn := Turn.ai }

/-- The number of cards of suit `su` in `hand` (`suitCounts[su]` in the AI
step, with absent keys counting as `0`). -/
def suitCount (hand : List Card) (su : Suit) : Nat :=
  (hand.filter fun c => c.suit = su).length

/-- The suits occurring in `hand`, first occurrence first: the insertion
order of the keys of `suitCounts` (`Object.keys` preserves it). -/
def suitKeys : List Card → List Suit
  | [] => []
  | c :: rest => c.suit :: suitKeys (rest.filter fun d => d.suit ≠ c.suit)
termination_by l => l.length
decreasing_by
  simp only [List.length_cons]
  exact Nat.lt_succ_of_le (List.length_filter_le _ _)

/-- The AI's suit choice after playing an Ace:
`Object.keys(suitCounts).sort((a, b) => suitCounts[b] - suitCounts[a])[0]
|| 'hearts'` — the head of a stable descending sort of the keys by count,
i.e. the first key attaining the maximal count, with `hearts` as the
fallback for an empty hand. -/
def bestSuit (hand : List Card) : Suit :=
  match suitKeys hand with
  | [] => Suit.hearts
  | k :: ks =>
    ks.foldl (fun best su => if suitCount hand best < suitCount hand su then su else best) k

/-- The AI decision step: the body of the `useEffect` timer callback, which
runs when it is the AI's turn and the game is playing.  The AI plays the
first non-Ace playable card, else the first playable card; on an Ace it
sets the suit it holds the most of; with no playable card it draws one card
(or skips on an empty deck) and in every case passes the turn back unless
the terminal check fired. -/
def aiStep (s : GameState) : GameState :=
  if s.turn ≠ Turn.ai ∨ s.gameStatus ≠ Status.playing then s
  else
    match s.aiHand.filter (canPlay s) with
    | [] =>
      match s.deck with
      | [] => { s with turn := Turn.player }
      | newCard :: newDeck =>
        { s with aiHand := s.aiHand ++ [newCard], deck := newDeck, turn := Turn.player }
    | c0 :: rest =>
      let cardToPlay := ((c0 :: rest).find? fun c => c.rank ≠ Rank.A).getD c0
      let newAiHand := s.aiHand.filter fun c => c.id ≠ cardToPlay.id
      let s1 := { s with aiHand := newAiHand
                         discardPile := s.discardPile ++ [cardToPlay] }
      let s2 :=
        if cardToPlay.rank = Rank.A then
          { s1 with currentSuit := some (bestSuit newAiHand) }
        else
          { s1 with currentSuit := some cardToPlay.suit }
      let r := checkGameOver s2 s.playerHand newAiHand
      if r.2 then r.1 else { r.1 with turn := Turn.player }

/-! ## Characterization lemmas: each handler under its preconditions -/

lemma handlePlayerPlay_eq (s : GameState) (card : Card)
    (h1 : s.turn = Turn.player) (h2 : s.gameStatus = Status.playing)
    (h3 : canPlay s card = true) (h4 : ¬card.rank = Rank.A) :
    handlePlayerPlay card s =
      (if (s.playerHand.filter fun c => c.id ≠ card.id).length = 0 then
        { s with playerHand := s.playerHand.filter fun c => c.id ≠ card.id
                 discardPile := s.discardPile ++ [card]
                 currentSuit := some card.suit
                 gameStatus := Status.lost }
      else if s.aiHand.length = 0 then
        { s with playerHand := s.playerHand.filter fun c => c.id ≠ card.id
                 discardPile := s.discardPile ++ [card]
                 currentSuit := some card.suit
                 gameStatus := Status.won }
      else
        { s with playerHand := s.playerHand.filter fun c => c.id ≠ card.id
                 discardPile := s.discardPile ++ [card]
                 currentSuit := some card.suit
                 turn := Turn.ai }) := by
  unfold handlePlayerPlay checkGameOver
  rw [if_neg (by simp [h1, h2, h3]), if_neg h4]
  dsimp only
  by_cases hp : (s.playerHand.filter fun c => c.id ≠ card.id).length = 0
  · simp only [if_pos hp]
    simp
  · simp only [if_neg hp]
    by_cases ha : s.aiHand.length = 0
    · simp only [if_pos ha]
      simp
    · simp only [if_neg ha]
      simp

lemma handlePlayerPlay_ace_eq (s : GameState) (card : Card)
    (h1 : s.turn = Turn.player) (h2 : s.gameStatus = Status.playing)
    (h3 : canPlay s card = true) (h4 : card.rank = Rank.A) :
    handlePlayerPlay card s =
      { s with pendingAceCard := some card, showSuitPicker := true } := by
  unfold handlePlayerPlay
  rw [if_neg (by simp [h1, h2, h3]), if_pos h4]

lemma handleSuitPick_eq (s : GameState) (suit : Suit) (p : Card)
    (hp : s.pendingAceCard = some p) :
    handleSuitPick suit s =
      (if (s.playerHand.filter fun c => c.id ≠ p.id).length = 0 then
        { s with playerHand := s.playerHand.filter fun c => c.id ≠ p.id
                 discardPile := s.discardPile ++ [p]
                 currentSuit := some suit
                 showSuitPicker := false
                 pendingAceCard := none
                 gameStatus := Status.lost }
      else if s.aiHand.length = 0 then
        { s with playerHand := s.playerHand.filter fun c => c.id ≠ p.id
                 discardPile := s.discardPile ++ [p]
                 currentSuit := some suit
                 showSuitPicker := false
                 pendingAceCard := none
                 gameStatus := Status.won }
      else
        { s with playerHand := s.playerHand.filter fun c => c.id ≠ p.id
                 discardPile := s.discardPile ++ [p]
                 currentSuit := some suit
                 showSuitPicker := false
                 pendingAceCard := none
                 turn := Turn.ai }) := by
  unfold handleSuitPick checkGameOver
  rw [hp]
  dsimp only
  by_cases hz : (s.playerHand.filter fun c => c.id ≠ p.id).length = 0
  · simp only [if_pos hz]
    simp
  · simp only [if_neg hz]
    by_cases ha : s.aiHand.length = 0
    · simp only [if_pos ha]
      simp
    · simp only [if_neg ha]
      simp

lemma handleDraw_empty_eq (s : GameState)
    (h1 : s.turn = Turn.player) (h2 : s.gameStatus = Status.playing)
    (hd : s.deck = []) :
    handleDraw s = { s with turn := Turn.ai } := by
  unfold handleDraw
  rw [if_neg (by simp [h1, h2]), hd]

lemma handleDraw_cons_eq (s : GameState) (c : Card) (rest : List Card)
    (h1 : s.turn = Turn.player) (h2 : s.gameStatus = Status.playing)
    (hd : s.deck = c :: rest) :
    handleDraw s =
      (if canPlay s c then
        { s with playerHand := s.playerHand ++ [c], deck := rest }
      else
        { s with playerHand := s.playerHand ++ [c], deck := rest, turn := Turn.ai }) := by
  unfold handleDraw
  rw [if_neg (by simp [h1, h2]), hd]

lemma aiStep_skip_eq (s : GameState)
    (h1 : s.turn = Turn.ai) (h2 : s.gameStatus = Status.playing)
    (h3 : s.aiHand.filter (canPlay s) = []) (hd : s.deck = []) :
    aiStep s = { s with turn := Turn.player } := by
  unfold aiStep
  rw [if_neg (by simp [h1, h2]), h3, hd]

lemma aiStep_draw_eq (s : GameState) (c : Card) (rest : List Card)
    (h1 : s.turn = Turn.ai) (h2 : s.gameStatus = Status.playing)
    (h3 : s.aiHand.filter (canPlay s) = []) (hd : s.deck = c :: rest) :
    aiStep s = { s with aiHand := s.aiHand ++ [c], deck := rest, turn := Turn.player } := by
  unfold aiStep
  rw [if_neg (by simp [h1, h2]), h3, hd]

lemma aiStep_play_eq (s : GameState) (c0 : Card) (rest : List Card)
    (h1 : s.turn = Turn.ai) (h2 : s.gameStatus = Status.playing)
    (h3 : s.aiHand.filter (canPlay s) = c0 :: rest) :
    aiStep s =
      (if s.playerHand.length = 0 then
        { s with aiHand := s.aiHand.filter fun c =>
                   c.id ≠ (((c0 :: rest).find? fun c => c.rank ≠ Rank.A).getD c0).id
                 discardPile :=
                   s.discardPile ++ [((c0 :: rest).find? fun c => c.rank ≠ Rank.A).getD c0]
                 currentSuit := some
                   (if (((c0 :: rest).find? fun c => c.rank ≠ Rank.A).getD c0).rank = Rank.A then
                     bestSuit (s.aiHand.filter fun c =>
                       c.id ≠ (((c0 :: rest).find? fun c => c.rank ≠ Rank.A).getD c0).id)
                   else (((c0 :: rest).find? fun c => c.rank ≠ Rank.A).getD c0).suit)
                 gameStatus := Status.lost }
      else if (s.aiHand.filter fun c =>
                 c.id ≠ (((c0 :: rest).find? fun c => c.rank ≠ Rank.A).getD c0).id).length = 0 then
        { s with aiHand := s.aiHand.filter fun c =>
                   c.id ≠ (((c0 :: rest).find? fun c => c.rank ≠ Rank.A).getD c0).id
                 discardPile :=
                   s.discardPile ++ [((c0 :: rest).find? fun c => c.rank ≠ Rank.A).getD c0]
                 currentSuit := some
                   (if (((c0 :: rest).find? fun c => c.rank ≠ Rank.A).getD c0).rank = Rank.A then
                     bestSuit (s.aiHand.filter fun c =>
                       c.id ≠ (((c0 :: rest).find? fun c => c.rank ≠ Rank.A).getD c0).id)
                   else (((c0 :: rest).find? fun c => c.rank ≠ Rank.A).getD c0).suit)
                 gameStatus := Status.won }
      else
        { s with aiHand := s.aiHand.filter fun c =>
                   c.id ≠ (((c0 :: rest).find? fun c => c.rank ≠ Rank.A).getD c0).id
                 discardPile :=
                   s.discardPile ++ [((c0 :: rest).find? fun c => c.rank ≠ Rank.A).getD c0]
                 currentSuit := some
                   (if (((c0 :: rest).find? fun c => c.rank ≠ Rank.A).getD c0).rank = Rank.A then
                     bestSuit (s.aiHand.filter fun c =>
                       c.id ≠ (((c0 :: rest).find? fun c => c.rank ≠ Rank.A).getD c0).id)
                   else (((c0 :: rest).find? fun c => c.rank ≠ Rank.A).getD c0).suit)
                 turn := Turn.player }) := by
  unfold aiStep checkGameOver
  rw [if_neg (by simp [h1, h2]), h3]
  dsimp only
  by_cases hA : (((c0 :: rest).find? fun c => c.rank ≠ Rank.A).getD c0).rank = Rank.A
  · simp only [if_pos hA]
    by_cases hp : s.playerHand.length = 0
    · simp only [if_pos hp]
      simp
    · simp only [if_neg hp]
      by_cases ha : (s.aiHand.filter fun c =>
          c.id ≠ (((c0 :: rest).find? fun c => c.rank ≠ Rank.A).getD c0).id).length = 0
      · simp only [if_pos ha]
        simp
      · simp only [if_neg ha]
        simp
  · simp only [if_neg hA]
    by_cases hp : s.playerHand.length = 0
    · simp only [if_pos hp]
      simp
    · simp only [if_neg hp]
      by_cases ha : (s.aiHand.filter fun c =>
          c.id ≠ (((c0 :: rest).find? fun c => c.rank ≠ Rank.A).getD c0).id).length = 0
      · simp only [if_pos ha]
        simp
      · simp only [if_neg ha]
        simp

/-! ## Concrete states used to instantiate the theorems -/

/-- Top discard of the sample states: 7 of clubs. -/
def wTop : Card := ⟨4, Suit.clubs, Rank.r7⟩

/-- A matching-rank card in the sample human hand: 7 of hearts. -/
def wSeven : Card := ⟨1, Suit.hearts, Rank.r7⟩

/-- A wild card in the sample human hand: Ace of spades. -/
def wAce : Card := ⟨2, Suit.spades, Rank.A⟩

/-- The sample draw-pile card: 9 of diamonds. -/
def wDrawn : Card := ⟨40, Suit.diamonds, Rank.r9⟩

/-- The sample opponent card: King of clubs. -/
def wKing : Card := ⟨3, Suit.clubs, Rank.K⟩

/-- A mid-game sample state: human's turn, game in progress. -/
def wState : GameState :=
  { deck := [wDrawn]
    playerHand := [wSeven, wAce]
    aiHand := [wKing]
    discardPile := [wTop]
    currentSuit := some Suit.clubs
    turn := Turn.player
    gameStatus := Status.playing
    showSuitPicker := false
    pendingAceCard := none }

/-- `wState` with the Ace play pending behind the suit picker. -/
def wStatePick : GameState :=
  { wState with pendingAceCard := some wAce, showSuitPicker := true }

/-- `wState` with the opponent to move. -/
def wStateAi : GameState := { wState with turn := Turn.ai }

/-- `wState` with an exhausted draw pile. -/
def wStateEmptyDeck : GameState := { wState with deck := [] }

/-! ## The claims -/

/-- C3: `canPlay card` holds iff the card's rank is the wild rank (Ace), or
its suit equals the current effective suit, or its rank equals the top
discard's rank; in particular every Ace is playable regardless of the
effective suit and top discard. -/
theorem canPlay_characterization (s : GameState) (top card : Card)
    (h : topDiscard s = some top) :
    (canPlay s card = true ↔
      card.rank = Rank.A ∨ some card.suit = s.currentSuit ∨ card.rank = top.rank)
    ∧ (card.rank = Rank.A → canPlay s card = true) := by
  unfold canPlay
  rw [h]
  constructor
  · by_cases hA : card.rank = Rank.A
    · simp [hA]
    · simp [hA]
  · intro hA
    simp [hA]

theorem canPlay_characterization_witness :
    topDiscard wState = some wTop
    ∧ ((canPlay wState wSeven = true ↔
        wSeven.rank = Rank.A ∨ some wSeven.suit = wState.currentSuit
          ∨ wSeven.rank = wTop.rank)
      ∧ (wSeven.rank = Rank.A → canPlay wState wSeven = true)) :=
  ⟨by decide, canPlay_characterization wState wTop wSeven (by decide)⟩

/-- C5: when it is the human's turn and the game is in progress, `draw` on an
empty pile passes the turn with no hand change; otherwise the top draw-pile
card moves into the human hand and the turn passes exactly when that card is
not playable under the current effective suit and top discard. -/
theorem handleDraw_behavior (s : GameState)
    (h1 : s.turn = Turn.player) (h2 : s.gameStatus = Status.playing) :
    (s.deck = [] →
      (handleDraw s).turn = Turn.ai
      ∧ (handleDraw s).playerHand = s.playerHand
      ∧ (handleDraw s).aiHand = s.aiHand)
    ∧ (∀ c rest, s.deck = c :: rest →
      (handleDraw s).playerHand = s.playerHand ++ [c]
      ∧ (handleDraw s).deck = rest
      ∧ (handleDraw s).turn = (if canPlay s c then Turn.player else Turn.ai)) := by
  constructor
  · intro hd
    rw [handleDraw_empty_eq s h1 h2 hd]
    exact ⟨rfl, rfl, rfl⟩
  · intro c rest hd
    rw [handleDraw_cons_eq s c rest h1 h2 hd]
    by_cases hc : canPlay s c = true
    · simp [hc, h1]
    · simp [hc]

theorem handleDraw_behavior_witness :
    (wStateEmptyDeck.turn = Turn.player ∧ wStateEmptyDeck.gameStatus = Status.playing
      ∧ wStateEmptyDeck.deck = []
      ∧ (handleDraw wStateEmptyDeck).turn = Turn.ai
      ∧ (handleDraw wStateEmptyDeck).playerHand = wStateEmptyDeck.playerHand
      ∧ (handleDraw wStateEmptyDeck).aiHand = wStateEmptyDeck.aiHand)
    ∧ (wState.deck = wDrawn :: []
      ∧ (handleDraw wState).playerHand = wState.playerHand ++ [wDrawn]
      ∧ (handleDraw wState).deck = []
      ∧ (handleDraw wState).turn = (if canPlay wState wDrawn then Turn.player else Turn.ai)) :=
  ⟨⟨by decide, by decide, by decide,
    (handleDraw_behavior wStateEmptyDeck (by decide) (by decide)).1 (by decide)⟩,
   by decide, (handleDraw_behavior wState (by decide) (by decide)).2 wDrawn [] (by decide)⟩

/-- C6: illegal intents are no-ops that leave the whole state unchanged:
playing a card that fails `canPlay` or acting when it is not the human's turn
or the game is not in progress, and choosing a suit when no wild card is
pending. -/
theorem illegal_intents_noop (s : GameState) (card : Card) (suit : Suit) :
    (¬(s.turn = Turn.player ∧ s.gameStatus = Status.playing ∧ canPlay s card = true) →
      handlePlayerPlay card s = s)
    ∧ (s.pendingAceCard = none → handleSuitPick suit s = s)
    ∧ (¬(s.turn = Turn.player ∧ s.gameStatus = Status.playing) → handleDraw s = s) := by
  refine ⟨?_, ?_, ?_⟩
  · intro h
    unfold handlePlayerPlay
    rw [if_pos (by tauto)]
  · intro h
    unfold handleSuitPick
    rw [h]
  · intro h
    unfold handleDraw
    rw [if_pos (by tauto)]

theorem illegal_intents_noop_witness :
    ¬(wStateAi.turn = Turn.player ∧ wStateAi.gameStatus = Status.playing
        ∧ canPlay wStateAi wSeven = true)
    ∧ wStateAi.pendingAceCard = none
    ∧ handlePlayerPlay wSeven wStateAi = wStateAi
    ∧ handleSuitPick Suit.hearts wStateAi = wStateAi
    ∧ handleDraw wStateAi = wStateAi :=
  ⟨by decide, by decide,
   (illegal_intents_noop wStateAi wSeven Suit.hearts).1 (by decide),
   (illegal_intents_noop wStateAi wSeven Suit.hearts).2.1 (by decide),
   (illegal_intents_noop wStateAi wSeven Suit.hearts).2.2 (by decide)⟩

/-- C9: dealing a shuffled 52-card deck gives the human exactly its first 10
cards, the opponent the next 10, makes the 21st card the sole initial discard
(its suit the initial effective suit), and the remaining 31 cards the draw
pile; the zone sizes sum to 52. -/
theorem initGame_deal (d : List Card) (h : d.Perm createDeck) :
    (initGame d).playerHand = d.take 10
    ∧ (initGame d).aiHand = (d.drop 10).take 10
    ∧ (initGame d).discardPile = [d.getD 20 default]
    ∧ (initGame d).currentSuit = some ((d.getD 20 default).suit)
    ∧ (initGame d).deck = d.drop 21
    ∧ (initGame d).playerHand.length = 10
    ∧ (initGame d).aiHand.length = 10
    ∧ (initGame d).discardPile.length = 1
    ∧ (initGame d).deck.length = 31
    ∧ (initGame d).playerHand.length + (initGame d).aiHand.length
        + (initGame d).discardPile.length + (initGame d).deck.length = 52 := by
  have hlen : d.length = 52 := by rw [h.length_eq]; rfl
  have e1 : (initGame d).playerHand.length = 10 := by
    show (d.take 10).length = 10
    rw [List.length_take, hlen]
    decide
  have e2 : (initGame d).aiHand.length = 10 := by
    show ((d.drop 10).take 10).length = 10
    rw [List.length_take, List.length_drop, hlen]
    decide
  have e4 : (initGame d).deck.length = 31 := by
    show (d.drop 21).length = 31
    rw [List.length_drop, hlen]
  exact ⟨rfl, rfl, rfl, rfl, rfl, e1, e2, rfl, e4, by rw [e1, e2, e4]; rfl⟩

theorem initGame_deal_witness :
    createDeck.Perm createDeck
    ∧ ((initGame createDeck).playerHand = createDeck.take 10
      ∧ (initGame createDeck).aiHand = (createDeck.drop 10).take 10
      ∧ (initGame createDeck).discardPile = [createDeck.getD 20 default]
      ∧ (initGame createDeck).currentSuit = some ((createDeck.getD 20 default).suit)
      ∧ (initGame createDeck).deck = createDeck.drop 21
      ∧ (initGame createDeck).playerHand.length = 10
      ∧ (initGame createDeck).aiHand.length = 10
      ∧ (initGame createDeck).discardPile.length = 1
      ∧ (initGame createDeck).deck.length = 31
      ∧ (initGame createDeck).playerHand.length + (initGame createDeck).aiHand.length
          + (initGame createDeck).discardPile.length + (initGame createDeck).deck.length = 52) :=
  ⟨List.Perm.refl createDeck, initGame_deal createDeck (List.Perm.refl createDeck)⟩

/-- C10: when it is the human's turn, the game is in progress and the draw
pile is non-empty, `draw` changes only the draw pile (losing its first card)
and the human hand (gaining that card); the discard pile, effective suit,
opponent hand, status and pending-wild state are unchanged. -/
theorem handleDraw_frame (s : GameState) (c : Card) (rest : List Card)
    (h1 : s.turn = Turn.player) (h2 : s.gameStatus = Status.playing)
    (hd : s.deck = c :: rest) :
    (handleDraw s).deck = rest
    ∧ (handleDraw s).playerHand = s.playerHand ++ [c]
    ∧ (handleDraw s).discardPile = s.discardPile
    ∧ (handleDraw s).currentSuit = s.currentSuit
    ∧ (handleDraw s).aiHand = s.aiHand
    ∧ (handleDraw s).gameStatus = s.gameStatus
    ∧ (handleDraw s).showSuitPicker = s.showSuitPicker
    ∧ (handleDraw s).pendingAceCard = s.pendingAceCard := by
  rw [handleDraw_cons_eq s c rest h1 h2 hd]
  by_cases hc : canPlay s c = true
  · simp [hc]
  · simp [hc]

theorem handleDraw_frame_witness :
    wState.turn = Turn.player ∧ wState.gameStatus = Status.playing
    ∧ wState.deck = wDrawn :: []
    ∧ ((handleDraw wState).deck = []
      ∧ (handleDraw wState).playerHand = wState.playerHand ++ [wDrawn]
      ∧ (handleDraw wState).discardPile = wState.discardPile
      ∧ (handleDraw wState).currentSuit = wState.currentSuit
      ∧ (handleDraw wState).aiHand = wState.aiHand
      ∧ (handleDraw wState).gameStatus = wState.gameStatus
      ∧ (handleDraw wState).showSuitPicker = wState.showSuitPicker
      ∧ (handleDraw wState).pendingAceCard = wState.pendingAceCard) :=
  ⟨by decide, by decide, by decide,
   handleDraw_frame wState wDrawn [] (by decide) (by decide) (by decide)⟩

/-- C2: after every hand-reducing play (a human non-Ace play, a completed Ace
play via suit pick, and the opponent's play) the terminal check runs before
any turn flip and tests the human hand first: an empty human hand gives
`lost`, else an empty opponent hand gives `won`, else the status stays
`playing` and only then does the turn flip. -/
theorem terminal_check_order (s : GameState) (card : Card) (suit : Suit) :
    (s.turn = Turn.player → s.gameStatus = Status.playing → canPlay s card = true →
      ¬card.rank = Rank.A →
      (handlePlayerPlay card s).gameStatus =
        (if (handlePlayerPlay card s).playerHand = [] then Status.lost
         else if (handlePlayerPlay card s).aiHand = [] then Status.won
         else Status.playing)
      ∧ (handlePlayerPlay card s).turn =
        (if (handlePlayerPlay card s).playerHand = [] ∨ (handlePlayerPlay card s).aiHand = []
         then s.turn else Turn.ai))
    ∧ (∀ p, s.pendingAceCard = some p → s.gameStatus = Status.playing →
      (handleSuitPick suit s).gameStatus =
        (if (handleSuitPick suit s).playerHand = [] then Status.lost
         else if (handleSuitPick suit s).aiHand = [] then Status.won
         else Status.playing)
      ∧ (handleSuitPick suit s).turn =
        (if (handleSuitPick suit s).playerHand = [] ∨ (handleSuitPick suit s).aiHand = []
         then s.turn else Turn.ai))
    ∧ (s.turn = Turn.ai → s.gameStatus = Status.playing →
      ∀ c0 rest, s.aiHand.filter (canPlay s) = c0 :: rest →
      (aiStep s).gameStatus =
        (if (aiStep s).playerHand = [] then Status.lost
         else if (aiStep s).aiHand = [] then Status.won
         else Status.playing)
      ∧ (aiStep s).turn =
        (if (aiStep s).playerHand = [] ∨ (aiStep s).aiHand = []
         then s.turn else Turn.player)) := by
  refine ⟨?_, ?_, ?_⟩
  · intro h1 h2 h3 h4
    rw [handlePlayerPlay_eq s card h1 h2 h3 h4]
    by_cases hp : (s.playerHand.filter fun c => c.id ≠ card.id).length = 0
    · have hp' := List.length_eq_zero.mp hp
      simp only [if_pos hp]
      rw [if_pos hp', if_pos (Or.inl hp')]
      exact ⟨rfl, rfl⟩
    · have hp' := (not_iff_not.mpr List.length_eq_zero).mp hp
      simp only [if_neg hp]
      by_cases ha : s.aiHand.length = 0
      · have ha' := List.length_eq_zero.mp ha
        simp only [if_pos ha]
        rw [if_neg hp', if_pos ha', if_pos (Or.inr ha')]
        exact ⟨rfl, rfl⟩
      · have ha' := (not_iff_not.mpr List.length_eq_zero).mp ha
        simp only [if_neg ha]
        rw [if_neg hp', if_neg ha', if_neg (not_or.mpr ⟨hp', ha'⟩)]
        exact ⟨h2, rfl⟩
  · intro p hpend h2
    rw [handleSuitPick_eq s suit p hpend]
    by_cases hz : (s.playerHand.filter fun c => c.id ≠ p.id).length = 0
    · have hz' := List.length_eq_zero.mp hz
      simp only [if_pos hz]
      rw [if_pos hz', if_pos (Or.inl hz')]
      exact ⟨rfl, rfl⟩
    · have hz' := (not_iff_not.mpr List.length_eq_zero).mp hz
      simp only [if_neg hz]
      by_cases ha : s.aiHand.length = 0
      · have ha' := List.length_eq_zero.mp ha
        simp only [if_pos ha]
        rw [if_neg hz', if_pos ha', if_pos (Or.inr ha')]
        exact ⟨rfl, rfl⟩
      · have ha' := (not_iff_not.mpr List.length_eq_zero).mp ha
        simp only [if_neg ha]
        rw [if_neg hz', if_neg ha', if_neg (not_or.mpr ⟨hz', ha'⟩)]
        exact ⟨h2, rfl⟩
  · intro h1 h2 c0 rest h3
    rw [aiStep_play_eq s c0 rest h1 h2 h3]
    by_cases hp : s.playerHand.length = 0
    · have hp' := List.length_eq_zero.mp hp
      simp only [if_pos hp]
      rw [if_pos hp', if_pos (Or.inl hp')]
      exact ⟨rfl, rfl⟩
    · have hp' := (not_iff_not.mpr List.length_eq_zero).mp hp
      simp only [if_neg hp]
      by_cases ha : (s.aiHand.filter fun c =>
          c.id ≠ (((c0 :: rest).find? fun c => c.rank ≠ Rank.A).getD c0).id).length = 0
      · have ha' := List.length_eq_zero.mp ha
        simp only [if_pos ha]
        rw [if_neg hp', if_pos ha', if_pos (Or.inr ha')]
        exact ⟨rfl, rfl⟩
      · have ha' := (not_iff_not.mpr List.length_eq_zero).mp ha
        simp only [if_neg ha]
        rw [if_neg hp', if_neg ha', if_neg (not_or.mpr ⟨hp', ha'⟩)]
        exact ⟨h2, rfl⟩

theorem terminal_check_order_witness :
    ((handlePlayerPlay wSeven wState).gameStatus =
        (if (handlePlayerPlay wSeven wState).playerHand = [] then Status.lost
         else if (handlePlayerPlay wSeven wState).aiHand = [] then Status.won
         else Status.playing)
      ∧ (handlePlayerPlay wSeven wState).turn =
        (if (handlePlayerPlay wSeven wState).playerHand = []
            ∨ (handlePlayerPlay wSeven wState).aiHand = []
         then wState.turn else Turn.ai))
    ∧ ((handleSuitPick Suit.diamonds wStatePick).gameStatus =
        (if (handleSuitPick Suit.diamonds wStatePick).playerHand = [] then Status.lost
         else if (handleSuitPick Suit.diamonds wStatePick).aiHand = [] then Status.won
         else Status.playing)
      ∧ (handleSuitPick Suit.diamonds wStatePick).turn =
        (if (handleSuitPick Suit.diamonds wStatePick).playerHand = []
            ∨ (handleSuitPick Suit.diamonds wStatePick).aiHand = []
         then wStatePick.turn else Turn.ai))
    ∧ ((aiStep wStateAi).gameStatus =
        (if (aiStep wStateAi).playerHand = [] then Status.lost
         else if (aiStep wStateAi).aiHand = [] then Status.won
         else Status.playing)
      ∧ (aiStep wStateAi).turn =
        (if (aiStep wStateAi).playerHand = [] ∨ (aiStep wStateAi).aiHand = []
         then wStateAi.turn else Turn.player)) :=
  ⟨(terminal_check_order wState wSeven Suit.diamonds).1
      (by decide) (by decide) (by decide) (by decide),
   (terminal_check_order wStatePick wSeven Suit.diamonds).2.1 wAce (by decide) (by decide),
   (terminal_check_order wStateAi wSeven Suit.diamonds).2.2
      (by decide) (by decide) wKing [] (by decide)⟩

/-- C4: a legal wild (Ace) play only records the pending card and opens the
suit picker — hand, discard pile, effective suit and turn are untouched; the
subsequent `chooseSuit` removes the pending card from the hand, appends it to
the discard pile, sets the effective suit to the chosen suit (not the card's
own suit), clears the pending state, runs the terminal check and flips the
turn to the opponent if the game continues. -/
theorem wild_play_two_phase (s : GameState) (card : Card) (suit : Suit) :
    (s.turn = Turn.player → s.gameStatus = Status.playing → canPlay s card = true →
      card.rank = Rank.A →
      handlePlayerPlay card s = { s with pendingAceCard := some card, showSuitPicker := true })
    ∧ (∀ p, s.pendingAceCard = some p →
      (handleSuitPick suit s).playerHand = s.playerHand.filter (fun c => c.id ≠ p.id)
      ∧ (handleSuitPick suit s).discardPile = s.discardPile ++ [p]
      ∧ (handleSuitPick suit s).currentSuit = some suit
      ∧ (handleSuitPick suit s).pendingAceCard = none
      ∧ (handleSuitPick suit s).showSuitPicker = false
      ∧ (handleSuitPick suit s).gameStatus =
          (if s.playerHand.filter (fun c => c.id ≠ p.id) = [] then Status.lost
           else if s.aiHand = [] then Status.won else s.gameStatus)
      ∧ (handleSuitPick suit s).turn =
          (if s.playerHand.filter (fun c => c.id ≠ p.id) = [] ∨ s.aiHand = [] then s.turn
           else Turn.ai)) := by
  constructor
  · intro h1 h2 h3 h4
    exact handlePlayerPlay_ace_eq s card h1 h2 h3 h4
  · intro p hpend
    rw [handleSuitPick_eq s suit p hpend]
    by_cases hz : (s.playerHand.filter fun c => c.id ≠ p.id).length = 0
    · have hz' := List.length_eq_zero.mp hz
      simp only [if_pos hz]
      rw [if_pos hz', if_pos (Or.inl hz')]
      simp
    · have hz' := (not_iff_not.mpr List.length_eq_zero).mp hz
      simp only [if_neg hz]
      by_cases ha : s.aiHand.length = 0
      · have ha' := List.length_eq_zero.mp ha
        simp only [if_pos ha]
        rw [if_neg hz', if_pos ha', if_pos (Or.inr ha')]
        simp
      · have ha' := (not_iff_not.mpr List.length_eq_zero).mp ha
        simp only [if_neg ha]
        rw [if_neg hz', if_neg ha', if_neg (not_or.mpr ⟨hz', ha'⟩)]
        simp

theorem wild_play_two_phase_witness :
    (wState.turn = Turn.player ∧ wState.gameStatus = Status.playing
      ∧ canPlay wState wAce = true ∧ wAce.rank = Rank.A
      ∧ handlePlayerPlay wAce wState =
          { wState with pendingAceCard := some wAce, showSuitPicker := true })
    ∧ (wStatePick.pendingAceCard = some wAce
      ∧ ((handleSuitPick Suit.diamonds wStatePick).playerHand =
            wStatePick.playerHand.filter (fun c => c.id ≠ wAce.id)
        ∧ (handleSuitPick Suit.diamonds wStatePick).discardPile =
            wStatePick.discardPile ++ [wAce]
        ∧ (handleSuitPick Suit.diamonds wStatePick).currentSuit = some Suit.diamonds
        ∧ (handleSuitPick Suit.diamonds wStatePick).pendingAceCard = none
        ∧ (handleSuitPick Suit.diamonds wStatePick).showSuitPicker = false
        ∧ (handleSuitPick Suit.diamonds wStatePick).gameStatus =
            (if wStatePick.playerHand.filter (fun c => c.id ≠ wAce.id) = [] then Status.lost
             else if wStatePick.aiHand = [] then Status.won else wStatePick.gameStatus)
        ∧ (handleSuitPick Suit.diamonds wStatePick).turn =
            (if wStatePick.playerHand.filter (fun c => c.id ≠ wAce.id) = []
                ∨ wStatePick.aiHand = [] then wStatePick.turn
             else Turn.ai))) :=
  ⟨⟨by decide, by decide, by decide, by decide,
    (wild_play_two_phase wState wAce Suit.diamonds).1
      (by decide) (by decide) (by decide) (by decide)⟩,
   by decide, (wild_play_two_phase wStatePick wAce Suit.diamonds).2 wAce (by decide)⟩

/-! ## The opponent's card and suit choice -/

lemma find?_filter_and (l : List Card) (p q : Card → Bool) :
    (l.filter p).find? q = l.find? fun a => p a && q a := by
  induction l with
  | nil => rfl
  | cons a t ih =>
    rw [List.filter_cons]
    by_cases hp : p a = true
    · rw [if_pos hp]
      by_cases hq : q a = true
      · rw [List.find?_cons_of_pos (List.filter p t) hq,
          List.find?_cons_of_pos t (by simp [hp, hq])]
      · rw [List.find?_cons_of_neg (List.filter p t) hq,
          List.find?_cons_of_neg t (by simp [hq]), ih]
    · rw [if_neg hp, List.find?_cons_of_neg t (by simp [hp]), ih]

lemma find?_of_filter_cons (l : List Card) (p : Card → Bool) (c0 : Card) (rest : List Card)
    (h : l.filter p = c0 :: rest) : l.find? p = some c0 := by
  rw [← List.filter_head?, h]
  rfl

lemma suitKeys_sub (l : List Card) :
    ∀ su ∈ suitKeys l, ∃ c ∈ l, c.suit = su := by
  induction l using suitKeys.induct with
  | case1 =>
    intro su h
    rw [suitKeys] at h
    cases h
  | case2 c rest ih =>
    intro su h
    rw [suitKeys] at h
    rcases List.mem_cons.mp h with rfl | h'
    · exact ⟨c, List.mem_cons_self c rest, rfl⟩
    · obtain ⟨d, hd, hds⟩ := ih su h'
      exact ⟨d, List.mem_cons_of_mem c (List.mem_of_mem_filter hd), hds⟩

lemma mem_suitKeys (l : List Card) :
    ∀ c ∈ l, c.suit ∈ suitKeys l := by
  induction l using suitKeys.induct with
  | case1 => intro c h; cases h
  | case2 c0 rest ih =>
    intro c h
    rw [suitKeys]
    rcases List.mem_cons.mp h with rfl | h'
    · exact List.mem_cons_self _ _
    · by_cases hs : c.suit = c0.suit
      · rw [hs]
        exact List.mem_cons_self _ _
      · refine List.mem_cons_of_mem _ (ih c ?_)
        exact List.mem_filter.mpr ⟨h', by simpa using hs⟩

lemma foldl_best_spec (f : Suit → Nat) :
    ∀ (ks : List Suit) (k : Suit),
      (ks.foldl (fun best su => if f best < f su then su else best) k = k
        ∨ ks.foldl (fun best su => if f best < f su then su else best) k ∈ ks)
      ∧ f k ≤ f (ks.foldl (fun best su => if f best < f su then su else best) k)
      ∧ ∀ x ∈ ks, f x ≤ f (ks.foldl (fun best su => if f best < f su then su else best) k)
  | [], k => ⟨Or.inl rfl, le_refl _, by simp⟩
  | a :: t, k => by
    have IH := foldl_best_spec f t (if f k < f a then a else k)
    have hstep : f k ≤ f (if f k < f a then a else k) := by
      by_cases hfa : f k < f a
      · rw [if_pos hfa]; exact le_of_lt hfa
      · rw [if_neg hfa]
    have hstepa : f a ≤ f (if f k < f a then a else k) := by
      by_cases hfa : f k < f a
      · rw [if_pos hfa]
      · rw [if_neg hfa]; exact le_of_not_lt hfa
    rw [List.foldl_cons]
    refine ⟨?_, le_trans hstep IH.2.1, ?_⟩
    · rcases IH.1 with h | h
      · rw [h]
        by_cases hfa : f k < f a
        · rw [if_pos hfa]
          exact Or.inr (List.mem_cons_self a t)
        · rw [if_neg hfa]
          exact Or.inl rfl
      · exact Or.inr (List.mem_cons_of_mem a h)
    · intro x hx
      rcases List.mem_cons.mp hx with rfl | hx'
      · exact le_trans hstepa IH.2.1
      · exact IH.2.2 x hx'

lemma bestSuit_spec (hand : List Card) (hne : hand ≠ []) :
    (∃ c ∈ hand, c.suit = bestSuit hand)
    ∧ ∀ t, suitCount hand t ≤ suitCount hand (bestSuit hand) := by
  obtain ⟨c1, rest1, rfl⟩ := List.exists_cons_of_ne_nil hne
  have hkeys : suitKeys (c1 :: rest1) =
      c1.suit :: suitKeys (rest1.filter fun d => d.suit ≠ c1.suit) := by
    rw [suitKeys]
  have hbest : bestSuit (c1 :: rest1) =
      (suitKeys (rest1.filter fun d => d.suit ≠ c1.suit)).foldl
        (fun best su => if suitCount (c1 :: rest1) best < suitCount (c1 :: rest1) su then su
          else best) c1.suit := by
    unfold bestSuit
    rw [hkeys]
  have spec := foldl_best_spec (suitCount (c1 :: rest1))
      (suitKeys (rest1.filter fun d => d.suit ≠ c1.suit)) c1.suit
  constructor
  · rcases spec.1 with h | h
    · rw [hbest, h]
      exact ⟨c1, List.mem_cons_self _ _, rfl⟩
    · rw [hbest]
      obtain ⟨d, hd, hds⟩ := suitKeys_sub _ _ h
      exact ⟨d, List.mem_cons_of_mem _ (List.mem_of_mem_filter hd), hds⟩
  · intro t
    by_cases ht : ∃ c ∈ c1 :: rest1, c.suit = t
    · obtain ⟨c, hc, rfl⟩ := ht
      have hmem := mem_suitKeys (c1 :: rest1) c hc
      rw [hkeys] at hmem
      rcases List.mem_cons.mp hmem with heq | hmem'
      · rw [heq, hbest]
        exact spec.2.1
      · rw [hbest]
        exact spec.2.2 _ hmem'
    · have : suitCount (c1 :: rest1) t = 0 := by
        unfold suitCount
        rw [List.length_eq_zero]
        rw [List.filter_eq_nil_iff]
        intro c hc
        simp only [decide_eq_true_eq]
        exact fun hs => ht ⟨c, hc, hs⟩
      rw [this]
      exact Nat.zero_le _

lemma bestSuit_nil : bestSuit [] = Suit.hearts := by
  unfold bestSuit
  rw [suitKeys]

lemma aiStep_play_fields (s : GameState) (c0 : Card) (rest : List Card)
    (h1 : s.turn = Turn.ai) (h2 : s.gameStatus = Status.playing)
    (h3 : s.aiHand.filter (canPlay s) = c0 :: rest) :
    (aiStep s).discardPile =
      s.discardPile ++ [((c0 :: rest).find? fun c => c.rank ≠ Rank.A).getD c0]
    ∧ (aiStep s).aiHand = s.aiHand.filter (fun c =>
        c.id ≠ (((c0 :: rest).find? fun c => c.rank ≠ Rank.A).getD c0).id)
    ∧ (aiStep s).currentSuit = some
        (if (((c0 :: rest).find? fun c => c.rank ≠ Rank.A).getD c0).rank = Rank.A then
          bestSuit (s.aiHand.filter fun c =>
            c.id ≠ (((c0 :: rest).find? fun c => c.rank ≠ Rank.A).getD c0).id)
        else (((c0 :: rest).find? fun c => c.rank ≠ Rank.A).getD c0).suit)
    ∧ (aiStep s).playerHand = s.playerHand := by
  rw [aiStep_play_eq s c0 rest h1 h2 h3]
  by_cases hp : s.playerHand.length = 0
  · simp only [if_pos hp]
    simp
  · simp only [if_neg hp]
    by_cases ha : (s.aiHand.filter fun c =>
        c.id ≠ (((c0 :: rest).find? fun c => c.rank ≠ Rank.A).getD c0).id).length = 0
    · simp only [if_pos ha]
      simp
    · simp only [if_neg ha]
      simp

/-- The card C7 says the opponent plays (named from the claim's wording, to
be compared with the choice `aiStep` makes): the first non-wild playable
card in hand order if one exists, otherwise the first playable card in hand
order. -/
def claimedAiChoice (s : GameState) : Option Card :=
  match s.aiHand.find? fun c => canPlay s c && decide (c.rank ≠ Rank.A) with
  | some c => some c
  | none => s.aiHand.find? (canPlay s)

/-- C7: whenever the opponent has a playable card, the card it plays (the one
appended to the discard pile and removed from its hand) is the first non-wild
playable card in hand order if one exists, and otherwise the first playable
(wild) card in hand order. -/
theorem ai_choice_first (s : GameState) (c0 : Card) (rest : List Card)
    (h1 : s.turn = Turn.ai) (h2 : s.gameStatus = Status.playing)
    (h3 : s.aiHand.filter (canPlay s) = c0 :: rest) :
    ∃ c, claimedAiChoice s = some c
      ∧ (aiStep s).discardPile = s.discardPile ++ [c]
      ∧ (aiStep s).aiHand = s.aiHand.filter fun x => x.id ≠ c.id := by
  obtain ⟨hd, hh, -, -⟩ := aiStep_play_fields s c0 rest h1 h2 h3
  refine ⟨((c0 :: rest).find? fun c => c.rank ≠ Rank.A).getD c0, ?_, hd, hh⟩
  unfold claimedAiChoice
  have hfilt := find?_filter_and s.aiHand (canPlay s) (fun c => c.rank ≠ Rank.A)
  rw [h3] at hfilt
  cases hcase : (c0 :: rest).find? fun c => c.rank ≠ Rank.A with
  | some c =>
    rw [hcase] at hfilt
    rw [← hfilt]
    rfl
  | none =>
    rw [hcase] at hfilt
    rw [← hfilt, find?_of_filter_cons s.aiHand (canPlay s) c0 rest h3]
    rfl

theorem ai_choice_first_witness :
    wStateAi.aiHand.filter (canPlay wStateAi) = wKing :: []
    ∧ ∃ c, claimedAiChoice wStateAi = some c
        ∧ (aiStep wStateAi).discardPile = wStateAi.discardPile ++ [c]
        ∧ (aiStep wStateAi).aiHand = wStateAi.aiHand.filter fun x => x.id ≠ c.id :=
  ⟨by decide, ai_choice_first wStateAi wKing [] (by decide) (by decide) (by decide)⟩

/-- C8: when the opponent plays a wild (Ace) card — i.e. it has a playable
card but no non-wild playable card — the effective suit becomes a suit it
holds the most of among its remaining hand, and `hearts` (the fixed
fallback) when the remaining hand is empty. -/
theorem ai_wild_suit (s : GameState) (c0 : Card) (rest : List Card)
    (h1 : s.turn = Turn.ai) (h2 : s.gameStatus = Status.playing)
    (h3 : s.aiHand.filter (canPlay s) = c0 :: rest)
    (h4 : s.aiHand.find? (fun c => canPlay s c && decide (c.rank ≠ Rank.A)) = none) :
    ∃ c, (aiStep s).discardPile = s.discardPile ++ [c]
      ∧ c.rank = Rank.A
      ∧ ((aiStep s).aiHand = [] → (aiStep s).currentSuit = some Suit.hearts)
      ∧ ((aiStep s).aiHand ≠ [] → ∃ su, (aiStep s).currentSuit = some su
          ∧ (∃ d ∈ (aiStep s).aiHand, d.suit = su)
          ∧ ∀ t, suitCount (aiStep s).aiHand t ≤ suitCount (aiStep s).aiHand su) := by
  obtain ⟨hd, hh, hs, -⟩ := aiStep_play_fields s c0 rest h1 h2 h3
  have hnone : ((c0 :: rest).find? fun c => c.rank ≠ Rank.A) = none := by
    have hfilt := find?_filter_and s.aiHand (canPlay s) (fun c => c.rank ≠ Rank.A)
    rw [h3] at hfilt
    rw [hfilt]
    exact h4
  have hc0 : (((c0 :: rest).find? fun c => c.rank ≠ Rank.A).getD c0) = c0 := by
    rw [hnone]
    rfl
  have hc0mem : c0 ∈ s.aiHand.filter (canPlay s) := by
    rw [h3]
    exact List.mem_cons_self _ _
  have hc0A : c0.rank = Rank.A := by
    have := List.find?_eq_none.mp hnone c0 (List.mem_cons_self _ _)
    simpa using this
  rw [hc0] at hd hh hs
  refine ⟨c0, hd, hc0A, ?_, ?_⟩
  · intro hemp
    rw [hh] at hemp
    rw [hs, if_pos hc0A, hemp, bestSuit_nil]
  · intro hne
    rw [hh] at hne
    obtain ⟨hmem, hbound⟩ := bestSuit_spec (s.aiHand.filter fun c => c.id ≠ c0.id) hne
    refine ⟨bestSuit (s.aiHand.filter fun c => c.id ≠ c0.id), ?_, ?_, ?_⟩
    · rw [hs, if_pos hc0A]
    · rw [hh]
      exact hmem
    · intro t
      rw [hh]
      exact hbound t

/-- The opponent's wild card in the C8 sample state: Ace of diamonds. -/
def wAiAce : Card := ⟨5, Suit.diamonds, Rank.A⟩

/-- An AI-to-move state whose only playable opponent card is a wild Ace. -/
def wStateAceAi : GameState :=
  { wState with turn := Turn.ai, aiHand := [⟨6, Suit.hearts, Rank.r3⟩, wAiAce] }

theorem ai_wild_suit_witness :
    wStateAceAi.aiHand.filter (canPlay wStateAceAi) = wAiAce :: []
    ∧ wStateAceAi.aiHand.find?
        (fun c => canPlay wStateAceAi c && decide (c.rank ≠ Rank.A)) = none
    ∧ ∃ c, (aiStep wStateAceAi).discardPile = wStateAceAi.discardPile ++ [c]
      ∧ c.rank = Rank.A
      ∧ ((aiStep wStateAceAi).aiHand = [] →
          (aiStep wStateAceAi).currentSuit = some Suit.hearts)
      ∧ ((aiStep wStateAceAi).aiHand ≠ [] →
          ∃ su, (aiStep wStateAceAi).currentSuit = some su
            ∧ (∃ d ∈ (aiStep wStateAceAi).aiHand, d.suit = su)
            ∧ ∀ t, suitCount (aiStep wStateAceAi).aiHand t
                ≤ suitCount (aiStep wStateAceAi).aiHand su) :=
  ⟨by decide, by decide,
   ai_wild_suit wStateAceAi wAiAce [] (by decide) (by decide) (by decide) (by decide)⟩

/-! ## Card conservation: the four zones always hold the full deck -/

lemma handlePlayerPlay_noop (s : GameState) (card : Card)
    (h : ¬(s.turn = Turn.player ∧ s.gameStatus = Status.playing ∧ canPlay s card = true)) :
    handlePlayerPlay card s = s := by
  unfold handlePlayerPlay
  rw [if_pos (by tauto)]

lemma handleSuitPick_noop (s : GameState) (suit : Suit)
    (h : s.pendingAceCard = none) : handleSuitPick suit s = s := by
  unfold handleSuitPick
  rw [h]

lemma handleDraw_noop (s : GameState)
    (h : ¬(s.turn = Turn.player ∧ s.gameStatus = Status.playing)) : handleDraw s = s := by
  unfold handleDraw
  rw [if_pos (by tauto)]

lemma aiStep_noop (s : GameState)
    (h : ¬(s.turn = Turn.ai ∧ s.gameStatus = Status.playing)) : aiStep s = s := by
  unfold aiStep
  rw [if_pos (by tauto)]

/-- All cards in the game, across the four zones. -/
def zones (s : GameState) : List Card :=
  s.deck ++ (s.playerHand ++ (s.aiHand ++ s.discardPile))

/-- The conservation invariant: 52 cards in total, no identifier twice. -/
def CardsInv (s : GameState) : Prop :=
  (zones s).length = 52 ∧ ((zones s).map Card.id).Nodup

/-- `Inv` strengthened by what makes it inductive: a pending wild card is a
card of the human hand and has the wild rank. -/
def StrongInv (s : GameState) : Prop :=
  CardsInv s ∧ ∀ p, s.pendingAceCard = some p → p ∈ s.playerHand ∧ p.rank = Rank.A

/-- A shuffled full deck: per the spec, `shuffleDeck` (in `src/types.ts`,
absent from the sources) returns a permutation of its input. -/
def ValidDeck (d : List Card) : Prop := d.Perm createDeck

/-- The states reachable through the UI: a (re)start with a shuffled full
deck, a click on a card of the rendered human hand, a suit pick, a draw, or
the opponent's scheduled step. -/
inductive Reachable : GameState → Prop where
  | init (d : List Card) (h : ValidDeck d) : Reachable (initGame d)
  | play (s : GameState) (card : Card) (hs : Reachable s)
      (hc : card ∈ s.playerHand) : Reachable (handlePlayerPlay card s)
  | pick (s : GameState) (suit : Suit) (hs : Reachable s) : Reachable (handleSuitPick suit s)
  | draw (s : GameState) (hs : Reachable s) : Reachable (handleDraw s)
  | aiMove (s : GameState) (hs : Reachable s) : Reachable (aiStep s)

lemma perm_cons_filter_of_mem (c : Card) (l : List Card) (hc : c ∈ l)
    (hnd : (l.map Card.id).Nodup) :
    l.Perm (c :: l.filter fun x => x.id ≠ c.id) := by
  induction l with
  | nil => cases hc
  | cons a t ih =>
    rw [List.map_cons, List.nodup_cons] at hnd
    rcases List.mem_cons.mp hc with rfl | hmem
    · have hT : t.filter (fun x => x.id ≠ c.id) = t := by
        rw [List.filter_eq_self]
        intro x hx
        simp only [decide_eq_true_eq]
        intro hxe
        exact hnd.1 (hxe ▸ List.mem_map_of_mem Card.id hx)
      rw [List.filter_cons, if_neg (by simp), hT]
    · have hid : a.id ≠ c.id := fun hEq => hnd.1 (hEq ▸ List.mem_map_of_mem Card.id hmem)
      rw [List.filter_cons, if_pos (by simpa using hid)]
      exact ((ih hmem hnd.2).cons a).trans (List.Perm.swap c a _)

lemma CardsInv_of_perm {s' s : GameState} (h : (zones s').Perm (zones s))
    (hs : CardsInv s) : CardsInv s' :=
  ⟨by rw [h.length_eq, hs.1], ((h.map Card.id).nodup_iff).mpr hs.2⟩

lemma perm_play_zones (D H H' A P : List Card) (c : Card) (h : H.Perm (c :: H')) :
    (D ++ (H' ++ (A ++ (P ++ [c])))).Perm (D ++ (H ++ (A ++ P))) := by
  refine Multiset.coe_eq_coe.mp ?_
  have hm : (H : Multiset Card) = {c} + (H' : Multiset Card) := by
    rw [Multiset.singleton_add, Multiset.cons_coe]
    exact Multiset.coe_eq_coe.mpr h
  simp only [← Multiset.coe_add, Multiset.coe_singleton, hm]
  abel

lemma perm_ai_zones (D H A A' P : List Card) (c : Card) (h : A.Perm (c :: A')) :
    (D ++ (H ++ (A' ++ (P ++ [c])))).Perm (D ++ (H ++ (A ++ P))) := by
  refine Multiset.coe_eq_coe.mp ?_
  have hm : (A : Multiset Card) = {c} + (A' : Multiset Card) := by
    rw [Multiset.singleton_add, Multiset.cons_coe]
    exact Multiset.coe_eq_coe.mpr h
  simp only [← Multiset.coe_add, Multiset.coe_singleton, hm]
  abel

lemma perm_draw_zones (R H A P : List Card) (c : Card) :
    (R ++ ((H ++ [c]) ++ (A ++ P))).Perm ((c :: R) ++ (H ++ (A ++ P))) := by
  refine Multiset.coe_eq_coe.mp ?_
  have hm : ((c :: R : List Card) : Multiset Card) = {c} + (R : Multiset Card) := by
    rw [Multiset.singleton_add, Multiset.cons_coe]
  simp only [← Multiset.coe_add, Multiset.coe_singleton, hm]
  abel

lemma perm_ai_draw_zones (R H A P : List Card) (c : Card) :
    (R ++ (H ++ ((A ++ [c]) ++ P))).Perm ((c :: R) ++ (H ++ (A ++ P))) := by
  refine Multiset.coe_eq_coe.mp ?_
  have hm : ((c :: R : List Card) : Multiset Card) = {c} + (R : Multiset Card) := by
    rw [Multiset.singleton_add, Multiset.cons_coe]
  simp only [← Multiset.coe_add, Multiset.coe_singleton, hm]
  abel

lemma playerHand_ids_nodup (s : GameState) (h : ((zones s).map Card.id).Nodup) :
    (s.playerHand.map Card.id).Nodup := by
  have hsub : List.Sublist s.playerHand (zones s) :=
    (List.sublist_append_left s.playerHand (s.aiHand ++ s.discardPile)).trans
      (List.sublist_append_right s.deck _)
  exact (hsub.map Card.id).nodup h

lemma aiHand_ids_nodup (s : GameState) (h : ((zones s).map Card.id).Nodup) :
    (s.aiHand.map Card.id).Nodup := by
  have hsub : List.Sublist s.aiHand (zones s) :=
    ((List.sublist_append_left s.aiHand s.discardPile).trans
      (List.sublist_append_right s.playerHand _)).trans
      (List.sublist_append_right s.deck _)
  exact (hsub.map Card.id).nodup h

lemma handlePlayerPlay_fields (s : GameState) (card : Card)
    (h1 : s.turn = Turn.player) (h2 : s.gameStatus = Status.playing)
    (h3 : canPlay s card = true) (h4 : ¬card.rank = Rank.A) :
    (handlePlayerPlay card s).deck = s.deck
    ∧ (handlePlayerPlay card s).playerHand = s.playerHand.filter (fun c => c.id ≠ card.id)
    ∧ (handlePlayerPlay card s).aiHand = s.aiHand
    ∧ (handlePlayerPlay card s).discardPile = s.discardPile ++ [card]
    ∧ (handlePlayerPlay card s).pendingAceCard = s.pendingAceCard := by
  rw [handlePlayerPlay_eq s card h1 h2 h3 h4]
  by_cases hp : (s.playerHand.filter fun c => c.id ≠ card.id).length = 0
  · simp only [if_pos hp]
    simp
  · simp only [if_neg hp]
    by_cases ha : s.aiHand.length = 0
    · simp only [if_pos ha]
      simp
    · simp only [if_neg ha]
      simp

lemma handleSuitPick_fields (s : GameState) (suit : Suit) (p : Card)
    (hp : s.pendingAceCard = some p) :
    (handleSuitPick suit s).deck = s.deck
    ∧ (handleSuitPick suit s).playerHand = s.playerHand.filter (fun c => c.id ≠ p.id)
    ∧ (handleSuitPick suit s).aiHand = s.aiHand
    ∧ (handleSuitPick suit s).discardPile = s.discardPile ++ [p]
    ∧ (handleSuitPick suit s).pendingAceCard = none := by
  rw [handleSuitPick_eq s suit p hp]
  by_cases hz : (s.playerHand.filter fun c => c.id ≠ p.id).length = 0
  · simp only [if_pos hz]
    simp
  · simp only [if_neg hz]
    by_cases ha : s.aiHand.length = 0
    · simp only [if_pos ha]
      simp
    · simp only [if_neg ha]
      simp

lemma aiStep_play_frame (s : GameState) (c0 : Card) (rest : List Card)
    (h1 : s.turn = Turn.ai) (h2 : s.gameStatus = Status.playing)
    (h3 : s.aiHand.filter (canPlay s) = c0 :: rest) :
    (aiStep s).deck = s.deck ∧ (aiStep s).pendingAceCard = s.pendingAceCard := by
  rw [aiStep_play_eq s c0 rest h1 h2 h3]
  by_cases hp : s.playerHand.length = 0
  · simp only [if_pos hp]
    simp
  · simp only [if_neg hp]
    by_cases ha : (s.aiHand.filter fun c =>
        c.id ≠ (((c0 :: rest).find? fun c => c.rank ≠ Rank.A).getD c0).id).length = 0
    · simp only [if_pos ha]
      simp
    · simp only [if_neg ha]
      simp

lemma cardToPlay_mem (s : GameState) (c0 : Card) (rest : List Card)
    (h3 : s.aiHand.filter (canPlay s) = c0 :: rest) :
    ((c0 :: rest).find? fun c => c.rank ≠ Rank.A).getD c0 ∈ s.aiHand := by
  cases hfind : (c0 :: rest).find? fun c => c.rank ≠ Rank.A with
  | some c =>
    have hmem : c ∈ c0 :: rest := List.mem_of_find?_eq_some hfind
    rw [← h3] at hmem
    simpa using List.mem_of_mem_filter hmem
  | none =>
    have hmem : c0 ∈ c0 :: rest := List.mem_cons_self _ _
    rw [← h3] at hmem
    simpa using List.mem_of_mem_filter hmem

lemma strongInv_play (s : GameState) (card : Card)
    (hc : card ∈ s.playerHand) (hI : StrongInv s) :
    StrongInv (handlePlayerPlay card s) := by
  by_cases hg : s.turn = Turn.player ∧ s.gameStatus = Status.playing ∧ canPlay s card = true
  · obtain ⟨h1, h2, h3⟩ := hg
    by_cases h4 : card.rank = Rank.A
    · rw [handlePlayerPlay_ace_eq s card h1 h2 h3 h4]
      refine ⟨hI.1, ?_⟩
      intro p hp
      have : card = p := by
        simpa using hp
      exact this ▸ ⟨hc, h4⟩
    · obtain ⟨hd, hh, hai, hdp, hpend⟩ := handlePlayerPlay_fields s card h1 h2 h3 h4
      have hnd : (s.playerHand.map Card.id).Nodup := playerHand_ids_nodup s hI.1.2
      have hperm := perm_cons_filter_of_mem card s.playerHand hc hnd
      have hzperm : (zones (handlePlayerPlay card s)).Perm (zones s) := by
        unfold zones
        rw [hd, hh, hai, hdp]
        exact perm_play_zones s.deck s.playerHand _ s.aiHand s.discardPile card
          ((hperm.trans (List.Perm.refl _)))
      refine ⟨CardsInv_of_perm hzperm hI.1, ?_⟩
      intro p hp
      rw [hpend] at hp
      obtain ⟨hpmem, hpA⟩ := hI.2 p hp
      refine ⟨?_, hpA⟩
      rw [hh]
      refine List.mem_filter.mpr ⟨hpmem, ?_⟩
      simp only [decide_eq_true_eq]
      intro hide
      exact h4 ((List.inj_on_of_nodup_map hnd hpmem hc hide) ▸ hpA)
  · rw [handlePlayerPlay_noop s card hg]
    exact hI

lemma strongInv_pick (s : GameState) (suit : Suit) (hI : StrongInv s) :
    StrongInv (handleSuitPick suit s) := by
  cases hpend : s.pendingAceCard with
  | none =>
    rw [handleSuitPick_noop s suit hpend]
    exact hI
  | some p =>
    obtain ⟨hpmem, -⟩ := hI.2 p hpend
    obtain ⟨hd, hh, hai, hdp, hpend'⟩ := handleSuitPick_fields s suit p hpend
    have hnd : (s.playerHand.map Card.id).Nodup := playerHand_ids_nodup s hI.1.2
    have hperm := perm_cons_filter_of_mem p s.playerHand hpmem hnd
    have hzperm : (zones (handleSuitPick suit s)).Perm (zones s) := by
      unfold zones
      rw [hd, hh, hai, hdp]
      exact perm_play_zones s.deck s.playerHand _ s.aiHand s.discardPile p hperm
    refine ⟨CardsInv_of_perm hzperm hI.1, ?_⟩
    intro q hq
    rw [hpend'] at hq
    cases hq

lemma strongInv_draw (s : GameState) (hI : StrongInv s) : StrongInv (handleDraw s) := by
  by_cases hg : s.turn = Turn.player ∧ s.gameStatus = Status.playing
  · obtain ⟨h1, h2⟩ := hg
    cases hd : s.deck with
    | nil =>
      rw [handleDraw_empty_eq s h1 h2 hd]
      refine ⟨hI.1, ?_⟩
      intro p hp
      exact hI.2 p hp
    | cons c rest =>
      rw [handleDraw_cons_eq s c rest h1 h2 hd]
      have hzperm : ∀ s' : GameState, s'.deck = rest →
          s'.playerHand = s.playerHand ++ [c] → s'.aiHand = s.aiHand →
          s'.discardPile = s.discardPile → (zones s').Perm (zones s) := by
        intro s' e1 e2 e3 e4
        unfold zones
        rw [e1, e2, e3, e4, hd]
        exact perm_draw_zones rest s.playerHand s.aiHand s.discardPile c
      have hpend : ∀ p, s.pendingAceCard = some p →
          p ∈ s.playerHand ++ [c] ∧ p.rank = Rank.A := by
        intro p hp
        obtain ⟨hpmem, hpA⟩ := hI.2 p hp
        exact ⟨List.mem_append_left _ hpmem, hpA⟩
      by_cases hcp : canPlay s c = true
      · rw [if_pos hcp]
        exact ⟨CardsInv_of_perm (hzperm _ rfl rfl rfl rfl) hI.1, hpend⟩
      · rw [if_neg hcp]
        exact ⟨CardsInv_of_perm (hzperm _ rfl rfl rfl rfl) hI.1, hpend⟩
  · rw [handleDraw_noop s hg]
    exact hI

lemma strongInv_ai (s : GameState) (hI : StrongInv s) : StrongInv (aiStep s) := by
  by_cases hg : s.turn = Turn.ai ∧ s.gameStatus = Status.playing
  · obtain ⟨h1, h2⟩ := hg
    cases hfilt : s.aiHand.filter (canPlay s) with
    | nil =>
      cases hd : s.deck with
      | nil =>
        rw [aiStep_skip_eq s h1 h2 hfilt hd]
        exact ⟨hI.1, hI.2⟩
      | cons c rest =>
        rw [aiStep_draw_eq s c rest h1 h2 hfilt hd]
        refine ⟨CardsInv_of_perm ?_ hI.1, ?_⟩
        · unfold zones
          dsimp only
          rw [hd]
          exact perm_ai_draw_zones rest s.playerHand s.aiHand s.discardPile c
        · intro p hp
          exact hI.2 p hp
    | cons c0 rest =>
      obtain ⟨hdp, hh, -, hph⟩ := aiStep_play_fields s c0 rest h1 h2 hfilt
      obtain ⟨hd, hpend⟩ := aiStep_play_frame s c0 rest h1 h2 hfilt
      have hmem := cardToPlay_mem s c0 rest hfilt
      have hnd : (s.aiHand.map Card.id).Nodup := aiHand_ids_nodup s hI.1.2
      have hperm := perm_cons_filter_of_mem _ s.aiHand hmem hnd
      have hzperm : (zones (aiStep s)).Perm (zones s) := by
        unfold zones
        rw [hd, hh, hph, hdp]
        exact perm_ai_zones s.deck s.playerHand s.aiHand _ s.discardPile _ hperm
      refine ⟨CardsInv_of_perm hzperm hI.1, ?_⟩
      intro p hp
      rw [hpend] at hp
      obtain ⟨hpmem, hpA⟩ := hI.2 p hp
      rw [hph]
      exact ⟨hpmem, hpA⟩
  · rw [aiStep_noop s hg]
    exact hI

lemma zones_initGame_perm (d : List Card) (hlen : d.length = 52) :
    (zones (initGame d)).Perm d := by
  have h20 : 20 < d.length := by omega
  have hg : d.getD 20 default = d[20] := by
    rw [List.getD_eq_getElem?_getD, List.getElem?_eq_getElem h20]
    rfl
  have e1 : d.take 10 ++ d.drop 10 = d := List.take_append_drop 10 d
  have e2 : (d.drop 10).take 10 ++ (d.drop 10).drop 10 = d.drop 10 :=
    List.take_append_drop 10 (d.drop 10)
  have e3 : (d.drop 10).drop 10 = d.drop 20 := by rw [List.drop_drop]
  have e4 : d.drop 20 = d[20] :: d.drop 21 := List.drop_eq_getElem_cons h20
  refine Multiset.coe_eq_coe.mp ?_
  conv_rhs => rw [← e1, ← e2, e3, e4]
  show ((d.drop 21 ++ (d.take 10 ++ ((d.drop 10).take 10 ++ [d.getD 20 default]))
      : List Card) : Multiset Card) = _
  rw [hg]
  simp only [← Multiset.coe_add, Multiset.coe_singleton, ← Multiset.cons_coe,
    ← Multiset.singleton_add, Multiset.coe_nil]
  abel

lemma strongInv_init (d : List Card) (h : ValidDeck d) : StrongInv (initGame d) := by
  have hlen : d.length = 52 := by rw [h.length_eq]; rfl
  have hzp := zones_initGame_perm d hlen
  have hdnd : (d.map Card.id).Nodup := ((h.map Card.id).nodup_iff).mpr (by decide)
  refine ⟨⟨?_, ?_⟩, ?_⟩
  · rw [hzp.length_eq, hlen]
  · exact ((hzp.map Card.id).nodup_iff).mpr hdnd
  · intro p hp
    exact Option.noConfusion hp

lemma strongInv_reachable (s : GameState) (h : Reachable s) : StrongInv s := by
  induction h with
  | init d hd => exact strongInv_init d hd
  | play s card hs hc ih => exact strongInv_play s card hc ih
  | pick s suit hs ih => exact strongInv_pick s suit ih
  | draw s hs ih => exact strongInv_draw s ih
  | aiMove s hs ih => exact strongInv_ai s ih

/-- C1: in every reachable state the four zones together hold exactly 52
cards and no card identifier occurs twice across (or within) them; all of
`playCard`, `chooseSuit`, `draw` and the opponent step preserve this, being
the transitions of `Reachable`. -/
theorem reachable_card_conservation (s : GameState) (h : Reachable s) :
    s.deck.length + s.playerHand.length + s.aiHand.length + s.discardPile.length = 52
    ∧ ((zones s).map Card.id).Nodup := by
  obtain ⟨⟨hlen, hnd⟩, -⟩ := strongInv_reachable s h
  refine ⟨?_, hnd⟩
  have hz : (zones s).length =
      s.deck.length + (s.playerHand.length + (s.aiHand.length + s.discardPile.length)) := by
    simp [zones]
  omega

theorem reachable_card_conservation_witness :
    (initGame createDeck).deck.length + (initGame createDeck).playerHand.length
      + (initGame createDeck).aiHand.length + (initGame createDeck).discardPile.length = 52
    ∧ ((zones (initGame createDeck)).map Card.id).Nodup :=
  reachable_card_conservation (initGame createDeck)
    (Reachable.init createDeck (List.Perm.refl createDeck))
